import Mathlib

/-!
Shallow embedding of the guildwars-mcp HTML-extraction layer
(`src/guildwars_mcp/wiki_parser.py` and the tool dispatcher in
`src/guildwars_mcp/server.py`).

Markup is modelled post-parse, as the element tree the HTML library hands
to the extraction code: `Node` is either an element (tag name, optional
`id` attribute, class list, optional `href` attribute, children) or a text
node.  The library operations the source relies on (`find`, `find_parent`,
`find_next_sibling`, `find_all`, CSS `select`, `get_text(strip=True)`,
element truthiness) are embedded as recursive functions on this tree, and
the Python string operations (`strip`, `lower`, `title`, `startswith`,
`replace`, slicing, truthiness) as functions on Lean strings.
-/

/-- Python `str.strip` whitespace set (ASCII). -/
def isPySpace (c : Char) : Bool :=
  c = ' ' ∨ c = '\t' ∨ c = '\n' ∨ c = '\r' ∨ c = '\x0b' ∨ c = '\x0c'

/-- Python `str.strip()`: drop leading and trailing whitespace. -/
def pyStrip (s : String) : String :=
  ⟨((s.data.dropWhile isPySpace).reverse.dropWhile isPySpace).reverse⟩

/-- Python `str.lower()` (ASCII case mapping). -/
def pyLower (s : String) : String :=
  ⟨s.data.map Char.toLower⟩

/-- Python `str.title()`: a letter is uppercased when the previous character
is not a letter, lowercased otherwise. -/
def pyTitleGo : Bool → List Char → List Char
  | _, [] => []
  | prevAlpha, c :: cs =>
      (if c.isAlpha then (if prevAlpha then c.toLower else c.toUpper) else c)
        :: pyTitleGo c.isAlpha cs

/-- Python `str.title()`. -/
def pyTitle (s : String) : String :=
  ⟨pyTitleGo false s.data⟩

/-- Python `str.startswith(pre)`. -/
def pyStartsWith (s pre : String) : Bool :=
  pre.data.isPrefixOf s.data

/-- Python `page_name.replace(' ', '_')`. -/
def pyReplaceSpaces (s : String) : String :=
  ⟨s.data.map (fun c => if c = ' ' then '_' else c)⟩

/-- Contiguous-sublist check on character lists (Python `pat in s`). -/
def containsSub (pat : List Char) : List Char → Bool
  | [] => pat.isEmpty
  | c :: cs => pat.isPrefixOf (c :: cs) || containsSub pat cs

/-- Python `pat in s` on strings. -/
def strHasSub (s pat : String) : Bool :=
  containsSub pat.data s.data

/-- Split a character list at newline characters (for inspecting rendered
text line by line). -/
def splitLines : List Char → List (List Char)
  | [] => [[]]
  | c :: cs =>
      if c = '\n' then [] :: splitLines cs
      else
        match splitLines cs with
        | l :: ls => (c :: l) :: ls
        | [] => [[c]]

/-- Number of rendered bullet lines (lines starting with "- "). -/
def bulletCount (s : String) : Nat :=
  ((splitLines s.data).filter (fun l => l.take 2 = ['-', ' '])).length

/-- Whether the rendered text has a truncation summary line. -/
def hasSummaryLine (s : String) : Bool :=
  (splitLines s.data).any (fun l => "Showing first".data.isPrefixOf l)

/-- A parsed markup node: an element with tag name, `id` attribute, class
list, `href` attribute and children, or a text node. -/
inductive Node where
  | elem (tag : String) (idAttr : Option String) (classes : List String)
      (hrefAttr : Option String) (children : List Node)
  | text (s : String)

/-- Element truthiness as the HTML library defines it: an element is falsy
when it has no children, a text node when it is empty. -/
def Node.truthy : Node → Bool
  | .elem _ _ _ _ cs => !cs.isEmpty
  | .text s => !(s = "")

/-- Tag-name test against a list of names (text nodes never match). -/
def isTagIn (tags : List String) : Node → Bool
  | .elem t _ _ _ _ => tags.contains t
  | .text _ => false

/-- Whether an element carries the given CSS class. -/
def hasClass (c : String) : Node → Bool
  | .elem _ _ cls _ _ => cls.contains c
  | .text _ => false

/-- The `href` attribute with `""` default (`link.get("href", "")`). -/
def hrefOf : Node → String
  | .elem _ _ _ h _ => h.getD ""
  | .text _ => ""

mutual
/-- `get_text(strip=True)`: concatenation of the stripped text of every
descendant text node, in document order. -/
def nodeText : Node → String
  | .text s => pyStrip s
  | .elem _ _ _ _ cs => listText cs
def listText : List Node → String
  | [] => ""
  | c :: cs => nodeText c ++ listText cs
end

mutual
/-- First element (preorder, the node itself included) satisfying `p`. -/
def findFirstNode (p : Node → Bool) : Node → Option Node
  | .text _ => none
  | .elem t i c h cs =>
      if p (.elem t i c h cs) then some (.elem t i c h cs)
      else findFirstList p cs
/-- First element of a forest (preorder) satisfying `p` (`soup.find`). -/
def findFirstList (p : Node → Bool) : List Node → Option Node
  | [] => none
  | n :: ns =>
      match findFirstNode p n with
      | some r => some r
      | none => findFirstList p ns
end

mutual
/-- All elements in the subtree rooted at a node satisfying `p`, preorder,
the node itself included. -/
def matchesIn (p : Node → Bool) : Node → List Node
  | .text _ => []
  | .elem t i c h cs =>
      (if p (.elem t i c h cs) then [Node.elem t i c h cs] else [])
        ++ matchesList p cs
/-- All elements of a forest satisfying `p`, preorder (`soup.select` over
the whole document). -/
def matchesList (p : Node → Bool) : List Node → List Node
  | [] => []
  | n :: ns => matchesIn p n ++ matchesList p ns
end

/-- All descendant elements of a node satisfying `p`, preorder
(`tag.find_all`, the node itself excluded). -/
def descOfNode (p : Node → Bool) : Node → List Node
  | .text _ => []
  | .elem _ _ _ _ cs => matchesList p cs

/-- Result of searching for the first `span` with a given `id`:
no such span; this very node is it; this node is its direct parent (the
sibling list must be taken one level up); or fully resolved with the
following siblings of the parent. -/
inductive AnchorRes where
  | noSpan : AnchorRes
  | isSpan : Node → AnchorRes
  | needSiblings : Node → AnchorRes
  | done : Node → List Node → AnchorRes

mutual
/-- Search one node for the first `span` with `id = i` (preorder), keeping
enough context to recover the parent's following siblings
(`soup.find('span', id=i)` followed by `find_parent()`). -/
def anchorNode (i : String) : Node → AnchorRes
  | .text _ => .noSpan
  | .elem t idA c h cs =>
      if t = "span" ∧ idA = some i then .isSpan (.elem t idA c h cs)
      else anchorScan i cs
/-- Search a sibling list left to right; when a child turns out to be the
matched span, the current element is its parent; when a child is the
parent, resolve with the remaining siblings. -/
def anchorScan (i : String) : List Node → AnchorRes
  | [] => .noSpan
  | n :: ns =>
      match anchorNode i n with
      | .isSpan sp => .needSiblings sp
      | .needSiblings sp => .done sp ns
      | .done sp sibs => .done sp sibs
      | .noSpan => anchorScan i ns
end

/-- The first `span` with `id = i` together with the following siblings of
its direct parent; `none` when no such span exists.  A span sitting at the
top level has the document itself as parent, which has no siblings. -/
def anchorInfo (i : String) (doc : List Node) : Option (Node × List Node) :=
  match anchorScan i doc with
  | .done sp sibs => some (sp, sibs)
  | .needSiblings sp => some (sp, [])
  | .isSpan sp => some (sp, [])
  | .noSpan => none

/-- First following sibling whose tag is in `tags`
(`find_next_sibling(['ul', 'ol'])`). -/
def firstSibTag (tags : List String) : List Node → Option Node
  | [] => none
  | n :: ns => if isTagIn tags n then some n else firstSibTag tags ns

/-- The list element the quest pipeline extracts a section from: the first
truthy `span` anchor with `id = i`, then the first `ul`/`ol` sibling of its
parent, provided that list is truthy. -/
def locatedList (i : String) (doc : List Node) : Option Node :=
  match anchorInfo i doc with
  | none => none
  | some (sp, sibs) =>
      if sp.truthy then
        match firstSibTag ["ul", "ol"] sibs with
        | none => none
        | some l => if l.truthy then some l else none
      else none

/-- Stripped text of every `li` descendant of a list element
(`[li.get_text(strip=True) for li in lst.find_all('li')]`). -/
def liTexts (l : Node) : List String :=
  (descOfNode (isTagIn ["li"]) l).map nodeText

/-- One optional list-valued quest field: item texts of the located list. -/
def listField (i : String) (doc : List Node) : Option (List String) :=
  (locatedList i doc).map liTexts

/-- Walkthrough accumulation over the parent's following siblings: stop at
the first `h2`/`h3`, collect the text of each `p`/`ul`/`ol`. -/
def collectWalk : List Node → List String
  | [] => []
  | .text _ :: ns => collectWalk ns
  | .elem t i c h cs :: ns =>
      if t = "h2" ∨ t = "h3" then []
      else if t = "p" ∨ t = "ul" ∨ t = "ol" then
        nodeText (.elem t i c h cs) :: collectWalk ns
      else collectWalk ns

/-- Python `"\n".join`. -/
def joinNewline : List String → String
  | [] => ""
  | [s] => s
  | s :: s2 :: ss => s ++ "\n" ++ joinNewline (s2 :: ss)

/-- The optional walkthrough field: accumulated text after the
`Walkthrough` anchor, `none` when the anchor is missing, falsy, or nothing
was accumulated. -/
def walkthroughField (doc : List Node) : Option String :=
  match anchorInfo "Walkthrough" doc with
  | none => none
  | some (sp, sibs) =>
      if sp.truthy then
        let content := collectWalk sibs
        if content.isEmpty then none else some (joinNewline content)
      else none

/-- Structured quest record (`parse_quest_page`'s result dict). -/
structure QuestRecord where
  name : String
  found : Bool
  objectives : Option (List String)
  rewards : Option (List String)
  walkthrough : Option String
  notes : Option (List String)
deriving DecidableEq

/-- `parse_quest_page`: probe the four independently optional sections.
The rewards anchor id in the source is the singular `'Reward'`. -/
def parse_quest_page (doc : List Node) (quest_name : String) : QuestRecord :=
  { name := quest_name
    found := true
    objectives := listField "Objectives" doc
    rewards := listField "Reward" doc
    walkthrough := walkthroughField doc
    notes := listField "Notes" doc }

/-- Bullet lines of a rendered list section. -/
def lineBullets : List String → String
  | [] => ""
  | s :: ss => "- " ++ s ++ "\n" ++ lineBullets ss

/-- `format_quest_response`: heading plus one subsection per truthy field,
in the fixed order Objectives, Rewards, Walkthrough, Notes. -/
def format_quest_response (q : QuestRecord) : String :=
  if q.found = false then
    "Quest '" ++ q.name ++ "' not found in the Guild Wars Wiki."
  else
    "# " ++ q.name ++ "\n\n"
    ++ (match q.objectives with
        | some l => if l.isEmpty then "" else "## Objectives\n" ++ lineBullets l ++ "\n"
        | none => "")
    ++ (match q.rewards with
        | some l => if l.isEmpty then "" else "## Rewards\n" ++ lineBullets l ++ "\n"
        | none => "")
    ++ (match q.walkthrough with
        | some w => if w = "" then "" else "## Walkthrough\n" ++ w ++ "\n\n"
        | none => "")
    ++ (match q.notes with
        | some l => if l.isEmpty then "" else "## Notes\n" ++ lineBullets l
        | none => "")

/-- Quest markup whose Objectives anchor is followed by a truthy list that
contains no list items. -/
def c1Doc : List Node :=
  [ .elem "h2" none [] none
      [ .elem "span" (some "Objectives") [] none [ .text "Objectives" ] ],
    .elem "ul" none [] none [ .text " " ] ]

/-- Quest markup whose rewards section is anchored by the identifier
`Rewards` (plural), followed by a one-item list. -/
def c5PluralDoc : List Node :=
  [ .elem "h2" none [] none
      [ .elem "span" (some "Rewards") [] none [ .text "Rewards" ] ],
    .elem "ul" none [] none
      [ .elem "li" none [] none [ .text "100 gold" ] ] ]

/-- Quest markup whose rewards section is anchored by the identifier
`Reward` (singular), followed by a one-item list. -/
def c5SingularDoc : List Node :=
  [ .elem "h2" none [] none
      [ .elem "span" (some "Reward") [] none [ .text "Reward" ] ],
    .elem "ul" none [] none
      [ .elem "li" none [] none [ .text "100 gold" ] ] ]


/-- Structured skill record (`parse_skill_page`'s result dict).  The
`campaign` and `type` fields exist but are never populated by extraction. -/
structure SkillRecord where
  name : String
  found : Bool
  type : Option String
  profession : Option String
  attrib : Option String
  campaign : Option String
  energy : Option String
  activation : Option String
  recharge : Option String
  description : Option String
deriving DecidableEq

/-- The skill infobox selector: a `table` element with class `skill-box`. -/
def isSkillBoxTable (n : Node) : Bool :=
  isTagIn ["table"] n && hasClass "skill-box" n

/-- The skill description selector: a `div` with class `skill-description`. -/
def isSkillDescriptionDiv (n : Node) : Bool :=
  isTagIn ["div"] n && hasClass "skill-description" n

/-- One infobox row: with at least two `th`/`td` cells, match the first
cell's lowercased text by substring containment against the fixed label
set; an if/elif chain, so the first matching label wins for that row. -/
def updateSkillRow (r : SkillRecord) (row : Node) : SkillRecord :=
  match descOfNode (isTagIn ["th", "td"]) row with
  | c0 :: c1 :: _ =>
      let header := pyLower (nodeText c0)
      let value := nodeText c1
      if strHasSub header "profession" then { r with profession := some value }
      else if strHasSub header "attribute" then { r with attrib := some value }
      else if strHasSub header "energy" then { r with energy := some value }
      else if strHasSub header "activation" then { r with activation := some value }
      else if strHasSub header "recharge" then { r with recharge := some value }
      else r
  | _ => r

/-- `parse_skill_page`: when no truthy skill infobox is present, report
`found = false` with every other field absent; otherwise fold the label
matcher over all infobox rows and pick up the description div. -/
def parse_skill_page (doc : List Node) (skill_name : String) : SkillRecord :=
  let base : SkillRecord :=
    { name := skill_name, found := true, type := none, profession := none,
      attrib := none, campaign := none, energy := none, activation := none,
      recharge := none, description := none }
  match findFirstList isSkillBoxTable doc with
  | none => { base with found := false }
  | some infobox =>
      if infobox.truthy = false then { base with found := false }
      else
        let r := (descOfNode (isTagIn ["tr"]) infobox).foldl updateSkillRow base
        match findFirstList isSkillDescriptionDiv doc with
        | none => r
        | some dv =>
            if dv.truthy then { r with description := some (nodeText dv) } else r

/-- A labelled line emitted only when the value is truthy (`if v: line`). -/
def optLine (label : String) : Option String → String
  | some s => if s = "" then "" else label ++ s ++ "\n"
  | none => ""

/-- The trailing description block, emitted only when truthy. -/
def optDescription : Option String → String
  | some s => if s = "" then "" else "\n**Description:**\n" ++ s ++ "\n"
  | none => ""

/-- `format_skill_response`: not-found message or heading, optional
labelled lines, the unconditional Stats subsection with optional bullet
lines, and an optional description block. -/
def format_skill_response (d : SkillRecord) : String :=
  if d.found = false then
    "Skill '" ++ d.name ++ "' not found in the Guild Wars Wiki."
  else
    "# " ++ d.name ++ "\n\n"
    ++ optLine "**Profession:** " d.profession
    ++ optLine "**Attribute:** " d.attrib
    ++ optLine "**Campaign:** " d.campaign
    ++ "\n**Stats:**\n"
    ++ optLine "- Energy: " d.energy
    ++ optLine "- Activation: " d.activation
    ++ optLine "- Recharge: " d.recharge
    ++ optDescription d.description

/-- One build-list entry: link text and (possibly rewritten) link target. -/
structure BuildEntry where
  name : String
  url : String
deriving DecidableEq

/-- Base URL of the build wiki. -/
def GWPVX_BASE_URL : String := "https://gwpvx.fandom.com/wiki"

/-- Base URL of the main wiki. -/
def WIKI_BASE_URL : String := "https://wiki.guildwars.com/wiki"

/-- The category slug table, in source (dict insertion) order. -/
def PVE_BUILD_CATEGORIES : List (String × String) :=
  [ ("general", "Category:All_working_general_builds"),
    ("farming", "Category:All_working_farming_builds"),
    ("running", "Category:All_working_running_builds"),
    ("quest", "Category:All_working_quest_builds"),
    ("hero", "Category:All_working_hero_builds"),
    ("speedclear", "Category:All_working_SC_builds"),
    ("teams", "Category:All_working_PvE_team_builds") ]

/-- One extracted link: trimmed text as name, href rewritten to absolute
when it is site-relative (starts with `/`). -/
def mkBuild (n : Node) : BuildEntry :=
  let href := hrefOf n
  { name := nodeText n
    url := if href ≠ "" ∧ pyStartsWith href "/" = true
           then GWPVX_BASE_URL ++ href else href }

/-- The primary selector `a.category-page__member-link`. -/
def selectPrimary (doc : List Node) : List Node :=
  matchesList (fun n => isTagIn ["a"] n && hasClass "category-page__member-link" n) doc

mutual
/-- One node under the legacy selector `div#mw-pages li a`: collect `a`
elements lying inside an `li` that lies inside the `div` with id
`mw-pages`, in document order. -/
def fbNode (inDiv inLi : Bool) : Node → List Node
  | .text _ => []
  | .elem t i c h cs =>
      (if t = "a" ∧ inLi = true then [Node.elem t i c h cs] else [])
        ++ fbList (inDiv || (t = "div" && i == some "mw-pages"))
            (inLi || (inDiv && t == "li")) cs
/-- Forest version of the legacy selector walk. -/
def fbList (inDiv inLi : Bool) : List Node → List Node
  | [] => []
  | n :: ns => fbNode inDiv inLi n ++ fbList inDiv inLi ns
end

/-- The legacy fallback selector `div#mw-pages li a`. -/
def selectFallback (doc : List Node) : List Node :=
  fbList false false doc

/-- `parse_pve_builds`: map the primary selector's links; when that yields
nothing, map the legacy selector's links instead. -/
def parse_pve_builds (doc : List Node) : List BuildEntry :=
  let builds := (selectPrimary doc).map mkBuild
  if builds.isEmpty then (selectFallback doc).map mkBuild else builds

/-- The anchors the build-category extractor ends up using: the primary
selector's matches, or the legacy selector's when the primary has none. -/
def matchedAnchors (doc : List Node) : List Node :=
  if (selectPrimary doc).isEmpty then selectFallback doc else selectPrimary doc

/-- Python slicing `xs[:k]` for an integer bound (negative bounds count
from the end). -/
def pySliceTo (xs : List BuildEntry) (k : Int) : List BuildEntry :=
  if k < 0 then xs.take ((xs.length : Int) + k).toNat else xs.take k.toNat

/-- One rendered build bullet: name, then an ` — url` suffix when the url
is non-empty. -/
def entryLine (b : BuildEntry) : String :=
  "- " ++ b.name ++ (if b.url = "" then "" else " — " ++ b.url) ++ "\n"

/-- All build bullets in order. -/
def bulletsOf : List BuildEntry → String
  | [] => ""
  | b :: bs => entryLine b ++ bulletsOf bs

/-- `format_pve_builds_response`: empty-list message, or heading plus one
bullet per (possibly truncated) entry, plus a truncation summary when a
truthy limit is below the total count. -/
def format_pve_builds_response (category : String) (builds : List BuildEntry)
    (limit : Option Int) : String :=
  if builds.isEmpty then
    "No builds found for category '" ++ category ++ "'."
  else
    let sliced := match limit with
      | some l => if l = 0 then builds else pySliceTo builds l
      | none => builds
    let response := sliced.foldl (fun acc b => acc ++ entryLine b)
      ("# PvE builds - " ++ pyTitle category ++ "\n\n")
    match limit with
    | some l =>
        if l ≠ 0 ∧ (builds.length : Int) > l then
          response ++ "\nShowing first " ++ toString l ++ " builds of "
            ++ toString builds.length ++ " total."
        else response
    | none => response

/-- Protocol text payload (`TextContent(type="text", text=...)`). -/
structure TextContent where
  type : String
  text : String
deriving DecidableEq

/-- The dispatcher's argument bag; a `none` required field models a
missing key, whose lookup raises the KeyError the dispatcher catches. -/
structure ToolArgs where
  quest_name : Option String
  skill_name : Option String
  category : Option String
  limit : Option Int

/-- URL requested by `fetch_wiki_page`. -/
def fetch_wiki_url (page_name : String) : String :=
  WIKI_BASE_URL ++ "/" ++ pyReplaceSpaces page_name

/-- URL requested by `fetch_gwpvx_page`. -/
def fetch_gwpvx_url (path : String) : String :=
  GWPVX_BASE_URL ++ "/" ++ path

/-- The `get_quest_info` branch: fetch, then parse and format.  The second
component records the URLs fetched during the call. -/
def quest_tool (quest_name : String) (wikiHtml : Option (List Node)) :
    List TextContent × List String :=
  match wikiHtml with
  | none =>
      ([⟨"text", "Could not fetch information for quest '" ++ quest_name
          ++ "'. The quest may not exist or there was a network error."⟩],
        [fetch_wiki_url quest_name])
  | some html =>
      ([⟨"text", format_quest_response (parse_quest_page html quest_name)⟩],
        [fetch_wiki_url quest_name])

/-- The `get_skill_info` branch. -/
def skill_tool (skill_name : String) (wikiHtml : Option (List Node)) :
    List TextContent × List String :=
  match wikiHtml with
  | none =>
      ([⟨"text", "Could not fetch information for skill '" ++ skill_name
          ++ "'. The skill may not exist or there was a network error."⟩],
        [fetch_wiki_url skill_name])
  | some html =>
      ([⟨"text", format_skill_response (parse_skill_page html skill_name)⟩],
        [fetch_wiki_url skill_name])

/-- The `get_pve_builds` branch: lowercase the category, validate it
against the slug table before any fetch, then fetch, parse and format. -/
def pve_tool (rawCat : String) (limit : Option Int)
    (pvxHtml : Option (List Node)) : List TextContent × List String :=
  let category := pyLower rawCat
  match List.lookup category PVE_BUILD_CATEGORIES with
  | none =>
      ([⟨"text", "Invalid category '" ++ category ++ "'. Valid options: "
          ++ String.intercalate ", " (PVE_BUILD_CATEGORIES.map Prod.fst)⟩], [])
  | some path =>
      match pvxHtml with
      | none =>
          ([⟨"text", "Could not fetch PvE builds for category '"
              ++ category ++ "'."⟩], [fetch_gwpvx_url path])
      | some html =>
          ([⟨"text", format_pve_builds_response category
              (parse_pve_builds html) limit⟩], [fetch_gwpvx_url path])

/-- `call_tool`: route on the tool name; a missing required argument is the
KeyError the outer handler turns into an `Error: ...` payload; an unknown
name yields its own message.  Every path returns exactly one payload. -/
def call_tool (name : String) (args : ToolArgs)
    (wikiHtml pvxHtml : Option (List Node)) : List TextContent × List String :=
  if name = "get_quest_info" then
    match args.quest_name with
    | none => ([⟨"text", "Error: 'quest_name'"⟩], [])
    | some qn => quest_tool qn wikiHtml
  else if name = "get_skill_info" then
    match args.skill_name with
    | none => ([⟨"text", "Error: 'skill_name'"⟩], [])
    | some sn => skill_tool sn wikiHtml
  else if name = "get_pve_builds" then
    match args.category with
    | none => ([⟨"text", "Error: 'category'"⟩], [])
    | some c => pve_tool c args.limit pvxHtml
  else
    ([⟨"text", "Unknown tool: " ++ name⟩], [])

/-- Build-category markup in the modern layout with two member links, the
first with a site-relative href (the spec's two-link scenario). -/
def c4Doc : List Node :=
  [ .elem "div" none ["category-page__members"] none
      [ .elem "a" none ["category-page__member-link"]
          (some "/wiki/Build:Mo/W_General_Survivor")
          [ .text "Mo/W General Survivor" ],
        .elem "a" none ["category-page__member-link"]
          (some "/wiki/Build:Me/N_Farming_SS")
          [ .text "Me/N Farming SS" ] ] ]

/-- The first member link of `c4Doc`. -/
def c4Link : Node :=
  .elem "a" none ["category-page__member-link"]
    (some "/wiki/Build:Mo/W_General_Survivor")
    [ .text "Mo/W General Survivor" ]

/-- Three build entries, for the truncation scenario. -/
def c2Builds : List BuildEntry :=
  [ ⟨"Build A", "https://gwpvx.fandom.com/wiki/Build_A"⟩,
    ⟨"Build B", "https://gwpvx.fandom.com/wiki/Build_B"⟩,
    ⟨"Build C", "https://gwpvx.fandom.com/wiki/Build_C"⟩ ]

/-- Markup with no skill infobox table at all. -/
def c3Doc : List Node :=
  [ .elem "p" none [] none [ .text "Not a skill page." ],
    .elem "table" none ["wikitable"] none
      [ .elem "tr" none [] none
          [ .elem "td" none [] none [ .text "something else" ] ] ] ]

/-- A skill record with `found = true` and no stats at all. -/
def c9Record : SkillRecord :=
  { name := "Meteor Shower", found := true, type := none, profession := none,
    attrib := none, campaign := none, energy := none, activation := none,
    recharge := none, description := none }

/-- Argument bag carrying the unrecognized category `invalid`. -/
def c7Args : ToolArgs :=
  { quest_name := none, skill_name := none, category := some "invalid",
    limit := none }

/-- Argument bag carrying the mixed-case category `Farming`. -/
def c10Args : ToolArgs :=
  { quest_name := none, skill_name := none, category := some "Farming",
    limit := some 5 }
/-- C1, counterexample: on markup whose `Objectives` anchor is followed by
a list with no list items, `parse_quest_page` returns a present-but-empty
objectives sequence, so the pipeline does not maintain
"absent or non-empty" for the three list fields. -/
theorem c1_counterexample :
    (parse_quest_page c1Doc "Quest").objectives = some [] := rfl

/-- C1, amended: each of objectives/rewards/notes is either absent — and it
is absent whenever no (truthy) anchor-plus-following-list pair is located —
or it is exactly the sequence of item texts of the located list; that
sequence is empty exactly when the located list contains no list items, so
a present-but-empty value is possible. -/
theorem c1_amended : ∀ (doc : List Node) (qn : String),
    ((parse_quest_page doc qn).objectives = none ∧ locatedList "Objectives" doc = none ∨
      ∃ L, locatedList "Objectives" doc = some L ∧
        (parse_quest_page doc qn).objectives = some (liTexts L))
    ∧ ((parse_quest_page doc qn).rewards = none ∧ locatedList "Reward" doc = none ∨
      ∃ L, locatedList "Reward" doc = some L ∧
        (parse_quest_page doc qn).rewards = some (liTexts L))
    ∧ ((parse_quest_page doc qn).notes = none ∧ locatedList "Notes" doc = none ∨
      ∃ L, locatedList "Notes" doc = some L ∧
        (parse_quest_page doc qn).notes = some (liTexts L)) := by
  intro doc qn
  refine ⟨?_, ?_, ?_⟩
  · cases h : locatedList "Objectives" doc with
    | none => exact Or.inl ⟨by simp [parse_quest_page, listField, h], rfl⟩
    | some L => exact Or.inr ⟨L, rfl, by simp [parse_quest_page, listField, h]⟩
  · cases h : locatedList "Reward" doc with
    | none => exact Or.inl ⟨by simp [parse_quest_page, listField, h], rfl⟩
    | some L => exact Or.inr ⟨L, rfl, by simp [parse_quest_page, listField, h]⟩
  · cases h : locatedList "Notes" doc with
    | none => exact Or.inl ⟨by simp [parse_quest_page, listField, h], rfl⟩
    | some L => exact Or.inr ⟨L, rfl, by simp [parse_quest_page, listField, h]⟩

/-- C5, counterexample: on markup whose rewards section uses the identifier
`Rewards` followed by a non-empty list, the rewards field stays absent —
the source matches the singular identifier `Reward`, not the section's
plural label. -/
theorem c5_counterexample :
    (parse_quest_page c5PluralDoc "Quest").rewards = none := rfl

/-- C5, amended: the quest pipeline matches anchors by the identifiers
`Objectives`, `Reward` (singular, not `Rewards`), `Walkthrough` and
`Notes`; in particular markup containing an element with identifier
`Reward` followed by a list populates the rewards field from that list,
while the identifier `Rewards` does not anchor anything. -/
theorem c5_amended :
    (∀ (doc : List Node) (qn : String),
        (parse_quest_page doc qn).objectives = listField "Objectives" doc
        ∧ (parse_quest_page doc qn).rewards = listField "Reward" doc
        ∧ (parse_quest_page doc qn).walkthrough = walkthroughField doc
        ∧ (parse_quest_page doc qn).notes = listField "Notes" doc)
    ∧ (parse_quest_page c5SingularDoc "Quest").rewards = some ["100 gold"] :=
  ⟨fun _ _ => ⟨rfl, rfl, rfl, rfl⟩, rfl⟩

/-- Data of an appended string is the appended data. -/
theorem strData_append (a b : String) : (a ++ b).data = a.data ++ b.data := by
  cases a; cases b; rfl

/-- C3: on markup containing no skill infobox table, `parse_skill_page`
returns `found = false` with every other field absent. -/
theorem c3_no_infobox : ∀ (doc : List Node) (sn : String),
    findFirstList isSkillBoxTable doc = none →
    parse_skill_page doc sn =
      { name := sn, found := false, type := none, profession := none,
        attrib := none, campaign := none, energy := none, activation := none,
        recharge := none, description := none } := by
  intro doc sn h
  simp [parse_skill_page, h]

/-- C3 witness: a concrete infobox-free page evaluates as the theorem
says. -/
theorem c3_witness :
    findFirstList isSkillBoxTable c3Doc = none ∧
    parse_skill_page c3Doc "Meteor Shower" =
      { name := "Meteor Shower", found := false, type := none,
        profession := none, attrib := none, campaign := none, energy := none,
        activation := none, recharge := none, description := none } :=
  ⟨rfl, c3_no_infobox c3Doc "Meteor Shower" rfl⟩

/-- C8: the three formatters are pure functions of their input record, so
formatting equal inputs twice yields byte-identical text. -/
theorem c8_formatters_deterministic :
    (∀ q : QuestRecord, format_quest_response q = format_quest_response q)
    ∧ (∀ d : SkillRecord, format_skill_response d = format_skill_response d)
    ∧ (∀ (c : String) (bs : List BuildEntry) (l : Option Int),
        format_pve_builds_response c bs l = format_pve_builds_response c bs l) :=
  ⟨fun _ => rfl, fun _ => rfl, fun _ _ _ => rfl⟩

/-- The Stats marker sits inside any text of the shape
`x ++ "\n**Stats:**\n" ++ y`. -/
theorem stats_infix_of_shape (x y : String) :
    "**Stats:**".data <:+: (x ++ "\n**Stats:**\n" ++ y).data := by
  refine ⟨x.data ++ ['\n'], '\n' :: y.data, ?_⟩
  have h : ("\n**Stats:**\n").data = '\n' :: ("**Stats:**".data ++ ['\n']) := rfl
  simp [strData_append, h]

/-- C9: for every skill record with `found = true`, the formatted output
contains the Stats subsection header, whether or not any stat is present. -/
theorem c9_stats_always : ∀ d : SkillRecord, d.found = true →
    "**Stats:**".data <:+: (format_skill_response d).data := by
  intro d h
  have hne : ¬ (d.found = false) := by simp [h]
  have hsplit : format_skill_response d
      = ("# " ++ d.name ++ "\n\n"
          ++ optLine "**Profession:** " d.profession
          ++ optLine "**Attribute:** " d.attrib
          ++ optLine "**Campaign:** " d.campaign)
        ++ "\n**Stats:**\n"
        ++ (optLine "- Energy: " d.energy
            ++ optLine "- Activation: " d.activation
            ++ optLine "- Recharge: " d.recharge
            ++ optDescription d.description) := by
    unfold format_skill_response
    rw [if_neg hne]
    simp [String.append_assoc]
  rw [hsplit]
  exact stats_infix_of_shape _ _

/-- C9 witness: a found record with no stats at all still renders the
Stats header. -/
theorem c9_witness :
    "**Stats:**".data <:+: (format_skill_response c9Record).data :=
  c9_stats_always c9Record rfl

/-- The bullet-accumulating fold renders the bullets after its seed. -/
theorem foldl_entryLine (bs : List BuildEntry) :
    ∀ a : String, bs.foldl (fun acc b => acc ++ entryLine b) a = a ++ bulletsOf bs := by
  induction bs with
  | nil => intro a; simp [bulletsOf]
  | cons b bs ih => intro a; simp [bulletsOf, ih, String.append_assoc]

/-- C2, counterexample: with one build and integer limit 0 (so L < N), the
rendered text contains one bullet and no summary line, not zero bullets
plus a summary — a falsy limit renders every entry with no truncation. -/
theorem c2_counterexample :
    ((0 : Int) < 1)
    ∧ format_pve_builds_response "general" [⟨"Build A", "u"⟩] (some 0)
        = "# PvE builds - General\n\n- Build A — u\n"
    ∧ bulletCount (format_pve_builds_response "general" [⟨"Build A", "u"⟩] (some 0)) = 1
    ∧ hasSummaryLine (format_pve_builds_response "general" [⟨"Build A", "u"⟩] (some 0)) = false := by
  refine ⟨by decide, rfl, by decide, by decide⟩

/-- C2, amended: for a non-empty entry sequence of length N and a positive
integer limit L < N the output is the heading, one bullet per entry of the
first L entries (exactly L of them), and the summary line naming L and N;
for L ≥ N, for L = 0 (a falsy limit), and for an absent limit, the output
is the heading plus one bullet per entry with no summary line. -/
theorem c2_amended :
    ∀ (cat : String) (builds : List BuildEntry) (L : Int),
      builds ≠ [] →
      (0 < L → L < (builds.length : Int) →
        format_pve_builds_response cat builds (some L)
          = "# PvE builds - " ++ pyTitle cat ++ "\n\n"
            ++ bulletsOf (builds.take L.toNat)
            ++ "\nShowing first " ++ toString L ++ " builds of "
            ++ toString builds.length ++ " total."
        ∧ (builds.take L.toNat).length = L.toNat)
      ∧ ((builds.length : Int) ≤ L ∨ L = 0 →
        format_pve_builds_response cat builds (some L)
          = "# PvE builds - " ++ pyTitle cat ++ "\n\n" ++ bulletsOf builds)
      ∧ format_pve_builds_response cat builds none
          = "# PvE builds - " ++ pyTitle cat ++ "\n\n" ++ bulletsOf builds := by
  intro cat builds L hne
  have hempty : builds.isEmpty = false := by
    cases builds with
    | nil => exact absurd rfl hne
    | cons b bs => rfl
  refine ⟨?_, ?_, ?_⟩
  · intro hpos hlt
    have hl0 : ¬ (L = 0) := by omega
    have hnn : ¬ (L < 0) := by omega
    have htake : (builds.take L.toNat).length = L.toNat := by
      rw [List.length_take]
      omega
    constructor
    · unfold format_pve_builds_response
      rw [hempty]
      simp only [Bool.false_eq_true, if_false, if_neg hl0]
      unfold pySliceTo
      rw [if_neg hnn, foldl_entryLine, if_pos ⟨hl0, hlt⟩]
    · exact htake
  · intro hc
    unfold format_pve_builds_response
    rw [hempty]
    simp only [Bool.false_eq_true, if_false]
    rcases hc with hge | h0
    · have hl0 : ¬ (L = 0) := by
        intro h
        rw [h] at hge
        have : builds.length = 0 := by omega
        exact hne (List.eq_nil_of_length_eq_zero this)
      have hnn : ¬ (L < 0) := by
        intro h
        have : (builds.length : Int) < 0 := lt_of_le_of_lt hge h
        omega
      have htk : builds.take L.toNat = builds := by
        apply List.take_of_length_le
        omega
      rw [if_neg hl0]
      unfold pySliceTo
      rw [if_neg hnn, htk, foldl_entryLine,
        if_neg (by rintro ⟨-, hgt⟩; omega)]
    · rw [if_pos h0, foldl_entryLine, if_neg (by rintro ⟨hl0, -⟩; exact hl0 h0)]
  · unfold format_pve_builds_response
    rw [hempty]
    simp only [Bool.false_eq_true, if_false]
    rw [foldl_entryLine]

/-- C2 witness: three builds with limit 2 render two bullets and the
"first 2 of 3" summary. -/
theorem c2_witness :
    format_pve_builds_response "farming" c2Builds (some 2)
      = "# PvE builds - Farming\n\n- Build A — https://gwpvx.fandom.com/wiki/Build_A\n- Build B — https://gwpvx.fandom.com/wiki/Build_B\n\nShowing first 2 builds of 3 total."
    ∧ (c2Builds.take 2).length = 2 := by
  have h := (c2_amended "farming" c2Builds 2 (by decide)).1 (by decide) (by decide)
  exact ⟨h.1.trans (by rfl), h.2⟩

/-- C4: the extractor's output is exactly the matched anchors mapped, in
document order, with no deduplication or sorting; each entry's url is the
build-base prefix plus the href when the href starts with `/`, and the
unchanged href otherwise. -/
theorem c4_url_rewrite :
    ∀ doc : List Node,
      parse_pve_builds doc = (matchedAnchors doc).map mkBuild
      ∧ ∀ n, n ∈ matchedAnchors doc →
          (pyStartsWith (hrefOf n) "/" = true →
            (mkBuild n).url = GWPVX_BASE_URL ++ hrefOf n)
          ∧ (pyStartsWith (hrefOf n) "/" = false →
            (mkBuild n).url = hrefOf n) := by
  intro doc
  constructor
  · cases hsel : selectPrimary doc with
    | nil => simp [parse_pve_builds, matchedAnchors, hsel]
    | cons a l => simp [parse_pve_builds, matchedAnchors, hsel]
  · intro n _
    constructor
    · intro hs
      have hne : hrefOf n ≠ "" := by
        intro he
        rw [he] at hs
        exact absurd hs (by decide)
      simp [mkBuild, hne, hs]
    · intro hs
      simp [mkBuild, hs]

/-- C4 witness: the spec's two-link scenario parses to two entries in
document order, the relative href rewritten against the build base. -/
theorem c4_witness :
    parse_pve_builds c4Doc =
      [ ⟨"Mo/W General Survivor",
          "https://gwpvx.fandom.com/wiki/wiki/Build:Mo/W_General_Survivor"⟩,
        ⟨"Me/N Farming SS",
          "https://gwpvx.fandom.com/wiki/wiki/Build:Me/N_Farming_SS"⟩ ]
    ∧ (mkBuild c4Link).url
        = GWPVX_BASE_URL ++ "/wiki/Build:Mo/W_General_Survivor" := by
  constructor
  · exact (c4_url_rewrite c4Doc).1.trans (by decide)
  · refine ((c4_url_rewrite c4Doc).2 c4Link ?_).1 rfl
    rw [show matchedAnchors c4Doc
        = [c4Link,
           Node.elem "a" none ["category-page__member-link"]
             (some "/wiki/Build:Me/N_Farming_SS")
             [Node.text "Me/N Farming SS"]] from rfl]
    exact List.mem_cons_self _ _

/-- C6: for every tool name and argument bag, the dispatcher returns
exactly one text payload of the fixed shape, whatever the fetch results
are — fetch failures, bad categories, missing arguments and unknown tool
names all land in this shape. -/
theorem c6_single_text_payload :
    ∀ (name : String) (args : ToolArgs) (wikiHtml pvxHtml : Option (List Node)),
      ∃ s : String,
        (call_tool name args wikiHtml pvxHtml).1 = [⟨"text", s⟩] := by
  intro name args w p
  simp only [call_tool, quest_tool, skill_tool, pve_tool]
  repeat' split
  all_goals exact ⟨_, rfl⟩

/-- C7: a category whose lowercasing is not a recognized slug is rejected
with the seven valid names echoed back, and no fetch is performed. -/
theorem c7_invalid_category :
    ∀ (args : ToolArgs) (w p : Option (List Node)) (c : String),
      args.category = some c →
      List.lookup (pyLower c) PVE_BUILD_CATEGORIES = none →
      call_tool "get_pve_builds" args w p =
        ([⟨"text", "Invalid category '" ++ pyLower c
            ++ "'. Valid options: general, farming, running, quest, hero, speedclear, teams"⟩],
          []) := by
  intro args w p c hc hl
  have h1 : call_tool "get_pve_builds" args w p = pve_tool c args.limit p := by
    simp [call_tool, hc]
  rw [h1]
  simp only [pve_tool]
  rw [hl]
  have hjoin : "'. Valid options: "
      ++ String.intercalate ", " (PVE_BUILD_CATEGORIES.map Prod.fst)
      = "'. Valid options: general, farming, running, quest, hero, speedclear, teams" := rfl
  rw [String.append_assoc, hjoin]

/-- C7 witness: the category `invalid` is rejected before any fetch with
the valid-option list. -/
theorem c7_witness :
    call_tool "get_pve_builds" c7Args none none =
      ([⟨"text", "Invalid category 'invalid'. Valid options: general, farming, running, quest, hero, speedclear, teams"⟩],
        []) :=
  c7_invalid_category c7Args none none "invalid" rfl rfl

/-- C10: a category whose lowercasing is a recognized slug is handled
exactly as the lowercase slug itself would be, path lookup and rendered
heading included. -/
theorem c10_case_insensitive :
    ∀ (args : ToolArgs) (w p : Option (List Node)) (c : String),
      args.category = some c →
      pyLower c ∈ PVE_BUILD_CATEGORIES.map Prod.fst →
      call_tool "get_pve_builds" args w p =
        call_tool "get_pve_builds"
          { args with category := some (pyLower c) } w p := by
  intro args w p c hc hmem
  have hid : pyLower (pyLower c) = pyLower c := by
    simp [PVE_BUILD_CATEGORIES] at hmem
    rcases hmem with h | h | h | h | h | h | h <;> rw [h] <;> rfl
  have h1 : call_tool "get_pve_builds" args w p = pve_tool c args.limit p := by
    simp [call_tool, hc]
  have h2 : call_tool "get_pve_builds" { args with category := some (pyLower c) } w p
      = pve_tool (pyLower c) args.limit p := by
    simp [call_tool]
  rw [h1, h2]
  simp only [pve_tool]
  rw [hid]

/-- C10 witness: the mixed-case category `Farming` behaves exactly as the
slug `farming`. -/
theorem c10_witness :
    call_tool "get_pve_builds" c10Args none none =
      call_tool "get_pve_builds"
        { c10Args with category := some (pyLower "Farming") } none none :=
  c10_case_insensitive c10Args none none "Farming" rfl (by decide)
